import Mathlib

/-!
Verification development for the `subar` status-line aggregator
(`src/main.rs`).  The Rust program is shallowly embedded:

* Rust `String`s that only undergo concatenation/formatting are modelled by
  Lean `String`.
* The now-playing pipeline is Unicode-grapheme-aware, so there a string is
  modelled by the list of its grapheme clusters (`Str`), each cluster being
  the nonempty list of its scalar values; byte lengths are recovered from
  `Char.utf8Size`.  `ofString` embeds a literal in which every scalar value
  is its own cluster (true for every literal appearing in the program).
* Subprocess results are modelled by `CmdResult` (spawn failure, or exit
  status plus raw stdout bytes); UTF-8 decoding, `str::trim`, byte-index
  slicing and substring search are implemented on that model.
* One iteration of a poller loop is a pure function `CmdResult →
  StepOutcome`: it publishes a message and sleeps some milliseconds, or the
  task dies (error propagation via `?`, or a panic).  `watch`-channel sends
  are assumed to succeed (the receiver half is held by `Taskmaster` for the
  process lifetime).
-/

namespace Subar

/-- Rust `char::is_whitespace`: the Unicode `White_Space` property. -/
def rustIsWhitespace (c : Char) : Bool :=
  c.val = 0x09 || c.val = 0x0A || c.val = 0x0B || c.val = 0x0C || c.val = 0x0D ||
  c.val = 0x20 || c.val = 0x85 || c.val = 0xA0 || c.val = 0x1680 ||
  (0x2000 ≤ c.val && c.val ≤ 0x200A) ||
  c.val = 0x2028 || c.val = 0x2029 || c.val = 0x202F || c.val = 0x205F || c.val = 0x3000

/-- A Unicode string, as its list of grapheme clusters (the segmentation
`unicode_segmentation` computes); a cluster is the list of its scalars. -/
abbrev Str := List (List Char)

/-- Embed a string each of whose scalar values is its own grapheme cluster. -/
def ofString (s : String) : Str := s.data.map fun c => [c]

/-- Byte length of one cluster (sum of the UTF-8 sizes of its scalars). -/
def clusterBytes (cl : List Char) : Nat := (cl.map Char.utf8Size).sum

/-- Byte length of a string, i.e. Rust `String::len`. -/
def byteLenStr (p : Str) : Nat := (p.map clusterBytes).sum

/-- A cluster consisting of whitespace scalars only. -/
def allWs (cl : List Char) : Bool := cl.all rustIsWhitespace

/-- Structural facts `unicode_segmentation` guarantees for a real cluster:
it is nonempty, and if its last scalar is whitespace the whole cluster is
whitespace (no extender/ZWJ/prepend scalar has the `White_Space` property;
the only multi-scalar cluster ending in whitespace is CRLF). -/
def wfCluster (cl : List Char) : Bool :=
  !cl.isEmpty &&
    (match cl.getLast? with
     | some c => !rustIsWhitespace c || allWs cl
     | none => true)

/-- Well-formed segmented string: every cluster is well formed. -/
def wfStr (p : Str) : Bool := p.all wfCluster

/-- Rust `str::trim_end` on a scalar sequence: drop trailing whitespace. -/
def trimEndChars (cs : List Char) : List Char :=
  (cs.reverse.dropWhile rustIsWhitespace).reverse

/-- Trailing-whitespace removal at cluster granularity: drop trailing
all-whitespace clusters. -/
def trimEndClusters (p : Str) : Str :=
  (p.reverse.dropWhile allWs).reverse

/-- Rust `str::trim` on a scalar sequence: drop whitespace at both ends. -/
def rustTrim (cs : List Char) : List Char :=
  ((cs.dropWhile rustIsWhitespace).reverse.dropWhile rustIsWhitespace).reverse

/-- Rust `[T]::join` / `str` intercalation on segmented strings. -/
def intercalateStr (sep : Str) : List Str → Str
  | [] => []
  | [a] => a
  | a :: rest => a ++ sep ++ intercalateStr sep rest

/- Constants of `src/main.rs` (same names as the Rust statics). -/

def MPD_FALLBACK : String := "🎵 ???"

def VOL_FALLBACK : String := "🔊 ???"

def WEATHER_FALLBACK : String := "🛰️ ???"

def MPD_UPDATE_FREQUENCY : Nat := 112

def VOL_UPDATE_FREQUENCY : Nat := 323

def WEATHER_UPDATE_FREQUENCY : Nat := 5137

def NOW_PLAYING_MAX_LEN : Nat := 70

/-- `std::time::Duration`: whole seconds plus nanoseconds. -/
structure RDuration where
  secs : Nat
  nanos : Nat
  deriving DecidableEq

/-- `Duration::as_secs`. -/
def RDuration.as_secs (d : RDuration) : Nat := d.secs

/-- Rust `format!("\x7b:02\x7d", n)`: decimal, zero-padded to width 2. -/
def pad2 (n : Nat) : String :=
  if n < 10 then ("0") ++ toString n else toString n

/-- `format_duration` of `src/main.rs`: `MM:SS`, minutes unbounded. -/
def format_duration (duration : RDuration) : String :=
  pad2 (duration.as_secs / 60) ++ (":") ++ pad2 (duration.as_secs % 60)

/-- Artist-list selection of `get_now_playing` (lines 215-221): fall back to
the album artists when the track artists are empty and the album artists
are not. -/
def selectArtists (artists albumArtists : List Str) : List Str :=
  if artists.isEmpty && !albumArtists.isEmpty then albumArtists else artists

/-- Artist joining of `get_now_playing` (lines 227-232): match on the
number of artists. -/
def joinArtists (artists : List Str) : Str :=
  match artists with
  | [] => ofString ("???")
  | [a] => a
  | [a, b] => a ++ ofString (" & ") ++ b
  | _ => intercalateStr (ofString (", ")) artists

/-- Truncation of `get_now_playing` (lines 234-241), at cluster
granularity.  The outer guard is Rust `String::len`, a byte length; the
inner condition is `grapheme_indices(true).nth(70)` being `Some`, i.e. the
string having more than 70 clusters; the kept part is the first 70 clusters
with trailing whitespace scalars removed, then `…` is pushed. -/
def truncatePlaying (p : Str) : Str :=
  if byteLenStr p > NOW_PLAYING_MAX_LEN then
    if p.length > NOW_PLAYING_MAX_LEN then
      trimEndClusters (p.take NOW_PLAYING_MAX_LEN) ++ [['…']]
    else p
  else p

/-- The same truncation observed at scalar granularity, exactly as the Rust
code computes it: `playing[..offset].trim_end().len()` is a byte index at
the end of the trimmed scalar sequence, `truncate` cuts there and `…` is
pushed. -/
def truncatePlayingChars (p : Str) : List Char :=
  if byteLenStr p > NOW_PLAYING_MAX_LEN then
    if p.length > NOW_PLAYING_MAX_LEN then
      trimEndChars (p.take NOW_PLAYING_MAX_LEN).flatten ++ ['…']
    else p.flatten
  else p.flatten

/-- Current-song metadata used by `get_now_playing`. -/
structure Song where
  artists : List Str
  albumArtists : List Str
  title : Option Str

/-- Player status used by `get_now_playing`: `status.elapsed` and
`status.duration`. -/
structure MpdStatus where
  elapsed : Option RDuration
  duration : Option RDuration

/-- Playback-time rendering of `get_now_playing` (lines 243-249).  `none`
models the panic of `status.duration.unwrap()` when `elapsed` is present
but `duration` is not. -/
def playback_time (elapsed duration : Option RDuration) : Option String :=
  match elapsed with
  | some e =>
    match duration with
    | some d => some (format_duration e ++ ("/") ++ format_duration d)
    | none => none
  | none => some ("00:00")

/-- `get_now_playing` (lines 209-252) as a pure function of the two
successful command responses.  `none` models the `unwrap` panic. -/
def get_now_playing (current : Option Song) (status : MpdStatus) : Option Str :=
  match current with
  | none => some (ofString MPD_FALLBACK)
  | some song =>
    let artists := selectArtists song.artists song.albumArtists
    let title :=
      match song.title with
      | some t => t
      | none => ofString ("???")
    let artist := joinArtists artists
    let playing := truncatePlaying (artist ++ ofString (" - ") ++ title)
    match playback_time status.elapsed status.duration with
    | some pt =>
      some (ofString ("🎵 ") ++ playing ++ ofString (" (") ++ ofString pt ++ ofString (")"))
    | none => none

/-- A UTF-8 continuation byte. -/
def utf8Cont (b : Nat) : Bool := 0x80 ≤ b && b < 0xC0

/-- Strict UTF-8 decoding of a byte sequence, as Rust
`String::from_utf8`: rejects stray/overlong sequences, surrogates and
scalar values above `0x10FFFF`. -/
def utf8Decode : List Nat → Option (List Char)
  | [] => some []
  | b :: rest =>
    if b < 0x80 then
      match utf8Decode rest with
      | some cs => some (Char.ofNat b :: cs)
      | none => none
    else if b < 0xC2 then none
    else if b < 0xE0 then
      match rest with
      | b1 :: rest1 =>
        if utf8Cont b1 then
          match utf8Decode rest1 with
          | some cs => some (Char.ofNat ((b - 0xC0) * 0x40 + (b1 - 0x80)) :: cs)
          | none => none
        else none
      | [] => none
    else if b < 0xF0 then
      match rest with
      | b1 :: b2 :: rest2 =>
        if utf8Cont b1 && utf8Cont b2 then
          let cp := (b - 0xE0) * 0x1000 + (b1 - 0x80) * 0x40 + (b2 - 0x80)
          if 0x800 ≤ cp && !(0xD800 ≤ cp && cp ≤ 0xDFFF) then
            match utf8Decode rest2 with
            | some cs => some (Char.ofNat cp :: cs)
            | none => none
          else none
        else none
      | _ => none
    else if b < 0xF5 then
      match rest with
      | b1 :: b2 :: b3 :: rest3 =>
        if utf8Cont b1 && utf8Cont b2 && utf8Cont b3 then
          let cp := (b - 0xF0) * 0x40000 + (b1 - 0x80) * 0x1000 + (b2 - 0x80) * 0x40 + (b3 - 0x80)
          if 0x10000 ≤ cp && cp ≤ 0x10FFFF then
            match utf8Decode rest3 with
            | some cs => some (Char.ofNat cp :: cs)
            | none => none
          else none
        else none
      | _ => none
    else none

/-- Drop exactly `n` bytes from the front of a scalar sequence; `none` if
`n` is not on a scalar boundary or past the end. -/
def dropBytes : List Char → Nat → Option (List Char)
  | s, 0 => some s
  | [], _ + 1 => none
  | c :: rest, n + 1 =>
    if c.utf8Size ≤ n + 1 then dropBytes rest (n + 1 - c.utf8Size) else none

/-- Take exactly `n` bytes from the front of a scalar sequence; `none` if
`n` is not on a scalar boundary or past the end. -/
def takeBytes : List Char → Nat → Option (List Char)
  | _, 0 => some []
  | [], _ + 1 => none
  | c :: rest, n + 1 =>
    if c.utf8Size ≤ n + 1 then
      match takeBytes rest (n + 1 - c.utf8Size) with
      | some t => some (c :: t)
      | none => none
    else none

/-- Rust byte-range slicing `s[a..b]`; `none` models the slicing panic
(index out of bounds or not on a scalar boundary). -/
def byteSlice (s : List Char) (a b : Nat) : Option (List Char) :=
  match dropBytes s a with
  | some t => takeBytes t (b - a)
  | none => none

/-- Does `s` start with `pat`? -/
def startsWithChars : List Char → List Char → Bool
  | _, [] => true
  | [], _ :: _ => false
  | c :: s, d :: p => c == d && startsWithChars s p

/-- Rust `str::contains` with a literal needle. -/
def containsChars (s pat : List Char) : Bool :=
  match s with
  | [] => pat.isEmpty
  | _ :: t => startsWithChars s pat || containsChars t pat

/-- One `Command::output().await` result: the spawn itself failed, or the
process ran with an exit status and captured stdout bytes. -/
inductive CmdResult where
  | spawnErr : CmdResult
  | ok (success : Bool) (stdout : List Nat) : CmdResult
  deriving DecidableEq

/-- Outcome of one iteration of a poller loop body: publish a message and
sleep that many milliseconds before the next iteration, or the task dies
(an error propagated by `?`, or a panic). -/
inductive StepOutcome where
  | publish (msg : String) (sleepMs : Nat) : StepOutcome
  | fatalErr : StepOutcome
  | panicked : StepOutcome
  deriving DecidableEq

/-- Sleep performed by an iteration, when the task survives it. -/
def sleepOf : StepOutcome → Option Nat
  | StepOutcome.publish _ ms => some ms
  | StepOutcome.fatalErr => none
  | StepOutcome.panicked => none

/-- One iteration of `weather_task` (lines 112-125): spawn failure and
nonzero exit publish the fallback and sleep the weather interval;
`String::from_utf8(cmd.stdout)?` propagates a decode failure, killing the
task; otherwise the decoded stdout is published. -/
def weatherStep (r : CmdResult) : StepOutcome :=
  match r with
  | CmdResult.spawnErr => StepOutcome.publish WEATHER_FALLBACK WEATHER_UPDATE_FREQUENCY
  | CmdResult.ok success stdout =>
    if success then
      match utf8Decode stdout with
      | some out => StepOutcome.publish (String.mk out) WEATHER_UPDATE_FREQUENCY
      | none => StepOutcome.fatalErr
    else StepOutcome.publish WEATHER_FALLBACK WEATHER_UPDATE_FREQUENCY

/-- One iteration of `volume_task` (lines 129-159): spawn failure and
nonzero exit publish the fallback and sleep 1000 ms;
`String::from_utf8(cmd.stdout)?` propagates a decode failure; the
fixed-offset slice `output.trim()[10..12]` panics when out of range;
otherwise icon and percentage are published, sleeping the volume
interval. -/
def volumeStep (r : CmdResult) : StepOutcome :=
  match r with
  | CmdResult.spawnErr => StepOutcome.publish VOL_FALLBACK 1000
  | CmdResult.ok success stdout =>
    if !success then StepOutcome.publish VOL_FALLBACK 1000
    else
      match utf8Decode stdout with
      | none => StepOutcome.fatalErr
      | some output =>
        let icon : String := if containsChars output (("MUTED").data) then ("🔇") else ("🔊")
        match byteSlice (rustTrim output) 10 12 with
        | none => StepOutcome.panicked
        | some volume => StepOutcome.publish (icon ++ (" ") ++ String.mk volume ++ ("%")) VOL_UPDATE_FREQUENCY

/-- The always-failing adapter input stream (spawn fails every time). -/
def constSpawn : Nat → CmdResult := fun _ => CmdResult.spawnErr

/-- `watch::channel(fallback)`: the slot initially holds the fallback. -/
def watchChannel (fallback : String) : String := fallback

/-- `watch::Sender::send`: overwrite the slot. -/
def watchSend (_slot : String) (v : String) : String := v

/-- `watch::Receiver::borrow` (used by `Taskmaster::status`): return the
slot, without blocking, failing or consuming it. -/
def watchBorrow (slot : String) : String := slot

/-- The three sources, in the order `main` declares them. -/
inductive SourceKind where
  | mpd : SourceKind
  | vol : SourceKind
  | weather : SourceKind
  deriving DecidableEq

/-- The disable flags `--no-mpd`, `--no-vol`, `--no-bom`. -/
structure Flags where
  noMpd : Bool
  noVol : Bool
  noBom : Bool

/-- Whether a source is disabled by the flags. -/
def disabled (f : Flags) : SourceKind → Bool
  | SourceKind.mpd => f.noMpd
  | SourceKind.vol => f.noVol
  | SourceKind.weather => f.noBom

/-- The task list `main` builds (lines 27-36): each source is appended in
declaration order unless its disable flag is passed. -/
def enabledSources (f : Flags) : List SourceKind :=
  (if f.noMpd then [] else [SourceKind.mpd]) ++
  (if f.noVol then [] else [SourceKind.vol]) ++
  (if f.noBom then [] else [SourceKind.weather])

/-- One render tick's `full_text` (lines 47-54): push each task's status
followed by a space, then push the timestamp rendering. -/
def buildStatusLine (statuses : List String) (datetime : String) : String :=
  (statuses.foldl (fun acc s => acc ++ s ++ (" ")) ("")) ++ datetime

/-- The i3bar protocol header struct. -/
structure Header where
  version : Nat
  click_events : Bool
  cont_signal : Nat
  stop_signal : Nat

/-- `Header::default()` (lines 70-79). -/
def defaultHeader : Header := Header.mk 1 false 18 19

/-- The header `main` emits (lines 39-44): with `--no-stop-on-hide` both
signal fields are set to 0. -/
def headerFor (noStopOnHide : Bool) : Header :=
  if noStopOnHide then Header.mk 1 false 0 0 else defaultHeader

/-- Minimal JSON values, enough for the serialized header object. -/
inductive Json where
  | jnum (n : Nat) : Json
  | jbool (b : Bool) : Json
  | jobj (fields : List (String × Json)) : Json

/-- `serde_json::to_string(&header)` at the level of the JSON object tree:
the four fields, in declaration order. -/
def headerJson (h : Header) : Json :=
  Json.jobj [("version", Json.jnum h.version), ("click_events", Json.jbool h.click_events),
    ("cont_signal", Json.jnum h.cont_signal), ("stop_signal", Json.jnum h.stop_signal)]

/-- A 71-cluster ASCII witness string. -/
def p71 : Str := List.replicate 71 ['a']

/-- Stdout bytes of a healthy `wpctl get-volume` report, `Volume: 0.50`. -/
def volOkBytes : List Nat := [86, 111, 108, 117, 109, 101, 58, 32, 48, 46, 53, 48]

/-- Dropping according to a predicate every element of the first part
satisfies skips that whole part. -/
theorem dropWhile_append_of_all {α : Type} {f : α → Bool} {l1 l2 : List α}
    (h : ∀ a ∈ l1, f a = true) : (l1 ++ l2).dropWhile f = l2.dropWhile f := by
  induction l1 with
  | nil => rfl
  | cons a t ih =>
    have ha : f a = true := h a (List.mem_cons_self a t)
    simp only [List.cons_append, List.dropWhile_cons, ha, if_true]
    exact ih fun x hx => h x (List.mem_cons_of_mem a hx)

/-- The head surviving a `dropWhile` fails the predicate. -/
theorem head?_dropWhile_false {α : Type} {f : α → Bool} :
    ∀ (l : List α) (a : α), (l.dropWhile f).head? = some a → f a = false := by
  intro l
  induction l with
  | nil => intro a h; simp [List.dropWhile] at h
  | cons x t ih =>
    intro a h
    rw [List.dropWhile_cons] at h
    by_cases hx : f x = true
    · rw [if_pos hx] at h
      exact ih a h
    · rw [if_neg hx] at h
      have hxa : x = a := by simpa using h
      subst hxa
      simpa using hx

/-- On a well-formed segmented string, scalar-level `trim_end` removes
exactly the trailing all-whitespace clusters. -/
theorem trimEndChars_flatten : ∀ (p : Str), wfStr p = true →
    trimEndChars p.flatten = (trimEndClusters p).flatten := by
  intro p
  induction p using List.reverseRecOn with
  | nil => intro _; rfl
  | append_singleton ps cl ih =>
    intro h
    have h2 : wfStr ps = true ∧ wfCluster cl = true := by
      unfold wfStr at h
      rw [List.all_append] at h
      simp only [List.all_cons, List.all_nil, Bool.and_true, Bool.and_eq_true] at h
      exact ⟨h.1, h.2⟩
    obtain ⟨hps, hcl⟩ := h2
    have hih := ih hps
    unfold trimEndChars trimEndClusters at hih ⊢
    rw [List.flatten_append]
    simp only [List.flatten_cons, List.flatten_nil, List.append_nil]
    by_cases hA : allWs cl = true
    · have hmem : ∀ a ∈ cl.reverse, rustIsWhitespace a = true := by
        intro a ha
        rw [List.mem_reverse] at ha
        exact (List.all_eq_true.mp hA) a ha
      rw [List.reverse_append, dropWhile_append_of_all hmem,
        List.reverse_append]
      simp only [List.reverse_cons, List.reverse_nil, List.nil_append, List.singleton_append]
      rw [List.dropWhile_cons, if_pos hA]
      exact hih
    · cases hrev : cl.reverse with
      | nil =>
        exfalso
        have : cl = [] := by simpa using congrArg List.reverse hrev
        subst this
        simp [allWs] at hA
      | cons c0 r0 =>
        have hlast : cl.getLast? = some c0 := by
          rw [← List.head?_reverse, hrev]; rfl
        have hc0 : rustIsWhitespace c0 = false := by
          unfold wfCluster at hcl
          rw [hlast] at hcl
          simp [hA] at hcl
          exact hcl.2
        rw [List.reverse_append, hrev, List.cons_append, List.dropWhile_cons,
          if_neg (by simp [hc0]), List.reverse_append]
        simp only [List.reverse_cons, List.reverse_nil, List.nil_append, List.singleton_append]
        rw [List.dropWhile_cons, if_neg (by simp [hA])]
        simp only [List.reverse_append, List.reverse_reverse, List.append_assoc, List.reverse_cons,
          List.flatten_append, List.flatten_cons, List.flatten_nil, List.append_nil]
        rw [← List.reverse_cons, ← hrev, List.reverse_reverse]

/-- `trimEndClusters` only removes clusters from the end: the result is a
prefix of its input. -/
theorem trimEndClusters_eq_take : ∀ (q : Str), ∃ k, k ≤ q.length ∧ trimEndClusters q = q.take k := by
  intro q
  induction q using List.reverseRecOn with
  | nil => exact ⟨0, Nat.le_refl 0, rfl⟩
  | append_singleton qs cl ih =>
    by_cases hA : allWs cl = true
    · obtain ⟨k, hk, he⟩ := ih
      refine ⟨k, ?_, ?_⟩
      · simp only [List.length_append, List.length_cons, List.length_nil]
        omega
      · unfold trimEndClusters at he ⊢
        rw [List.reverse_append]
        simp only [List.reverse_cons, List.reverse_nil, List.nil_append, List.singleton_append]
        rw [List.dropWhile_cons, if_pos hA, he, List.take_append_eq_append_take]
        have hz : k - qs.length = 0 := by omega
        rw [hz]
        simp
    · refine ⟨qs.length + 1, ?_, ?_⟩
      · simp
      · unfold trimEndClusters
        rw [List.reverse_append]
        simp only [List.reverse_cons, List.reverse_nil, List.nil_append, List.singleton_append]
        rw [List.dropWhile_cons, if_neg (by simp [hA])]
        rw [List.reverse_cons, List.reverse_reverse]
        have : qs.length + 1 = (qs ++ [cl]).length := by simp
        rw [this, List.take_length]

/-- The last cluster surviving `trimEndClusters` is not all whitespace. -/
theorem trimEndClusters_getLast (q : Str) (cl : List Char)
    (h : (trimEndClusters q).getLast? = some cl) : allWs cl = false := by
  unfold trimEndClusters at h
  rw [List.getLast?_reverse] at h
  exact head?_dropWhile_false q.reverse cl h

/-- The last scalar of a flattened segmented string is the last scalar of
its (nonempty) last cluster. -/
theorem flatten_getLast? : ∀ (q : Str) (cl : List Char), q.getLast? = some cl → cl ≠ [] →
    q.flatten.getLast? = cl.getLast? := by
  intro q
  induction q using List.reverseRecOn with
  | nil => intro cl hq _; simp at hq
  | append_singleton qs cl2 _ =>
    intro cl hq hne
    rw [List.getLast?_concat] at hq
    injection hq with hq
    subst hq
    rw [List.flatten_append]
    simp only [List.flatten_cons, List.flatten_nil, List.append_nil]
    exact List.getLast?_append_of_ne_nil _ hne

/-- A well-formed segmented string has at least as many bytes as clusters
(every cluster holds at least one scalar of at least one byte). -/
theorem length_le_byteLenStr (p : Str) (h : wfStr p = true) : p.length ≤ byteLenStr p := by
  induction p with
  | nil => simp [byteLenStr]
  | cons cl t ih =>
    unfold wfStr at h ih
    rw [List.all_cons, Bool.and_eq_true] at h
    obtain ⟨hcl, ht⟩ := h
    have h2 := ih ht
    have h1 : 1 ≤ clusterBytes cl := by
      cases cl with
      | nil => simp [wfCluster] at hcl
      | cons c r =>
        have := Char.utf8Size_pos c
        unfold clusterBytes
        rw [List.map_cons, List.sum_cons]
        omega
    unfold byteLenStr at h2 ⊢
    rw [List.map_cons, List.sum_cons, List.length_cons]
    omega

/-- Well-formedness is preserved by taking a prefix. -/
theorem wfStr_take (p : Str) (n : Nat) (h : wfStr p = true) : wfStr (p.take n) = true := by
  unfold wfStr at *
  rw [List.all_eq_true] at *
  exact fun x hx => h x (List.take_subset n p hx)

/-- Folding `watchSend` over a publish sequence leaves the last published
value in the slot (or the start value for the empty sequence). -/
theorem foldl_watchSend : ∀ (l : List String) (a : String),
    l.foldl watchSend a = l.getLast?.getD a := by
  intro l
  induction l with
  | nil => intro a; rfl
  | cons x t ih =>
    intro a
    rw [List.foldl_cons, ih (watchSend a x)]
    cases t with
    | nil => rfl
    | cons y u =>
      rw [List.getLast?_cons_cons]
      cases hu : (y :: u).getLast? with
      | none => simp at hu
      | some z => rfl

/-- The render-tick fold over an arbitrary start accumulator. -/
theorem foldl_append_str : ∀ (l : List String) (a : String),
    l.foldl (fun acc s => acc ++ s ++ (" ")) a =
      a ++ l.foldl (fun acc s => acc ++ s ++ (" ")) ("") := by
  intro l
  induction l with
  | nil => intro a; rw [List.foldl_nil, List.foldl_nil, String.append_empty]
  | cons x t ih =>
    intro a
    rw [List.foldl_cons, List.foldl_cons, ih (a ++ x ++ (" ")), ih (("") ++ x ++ (" "))]
    rw [String.empty_append, String.append_assoc, String.append_assoc, String.append_assoc]

/-- C1: on a well-formed segmented composed string, a string of at most 70
grapheme clusters is left unchanged; one of more than 70 clusters is cut at
the 70th cluster boundary (the kept part is a cluster-level prefix, so no
multi-codepoint cluster is split), trailing whitespace left by the cut is
stripped, one ellipsis cluster is appended, the result has at most 71
clusters, and the scalar immediately before the ellipsis is never
whitespace; the cluster-level model agrees with the scalar-level
computation the Rust code performs. -/
theorem c1_truncation (p : Str) (hwf : wfStr p = true) :
    (p.length ≤ NOW_PLAYING_MAX_LEN → truncatePlaying p = p) ∧
    (truncatePlaying p).flatten = truncatePlayingChars p ∧
    (NOW_PLAYING_MAX_LEN < p.length →
      ∃ k, k ≤ NOW_PLAYING_MAX_LEN ∧
        truncatePlaying p = p.take k ++ [['…']] ∧
        (truncatePlaying p).length ≤ NOW_PLAYING_MAX_LEN + 1 ∧
        ∀ c, (p.take k).flatten.getLast? = some c → rustIsWhitespace c = false) := by
  refine ⟨?_, ?_, ?_⟩
  · intro hlen
    unfold truncatePlaying
    by_cases hb : byteLenStr p > NOW_PLAYING_MAX_LEN
    · rw [if_pos hb, if_neg (by omega)]
    · rw [if_neg hb]
  · unfold truncatePlaying truncatePlayingChars
    by_cases hb : byteLenStr p > NOW_PLAYING_MAX_LEN
    · by_cases hl : p.length > NOW_PLAYING_MAX_LEN
      · rw [if_pos hb, if_pos hb, if_pos hl, if_pos hl, List.flatten_append]
        simp only [List.flatten_cons, List.flatten_nil, List.append_nil]
        rw [trimEndChars_flatten _ (wfStr_take p _ hwf)]
      · rw [if_pos hb, if_pos hb, if_neg hl, if_neg hl]
    · rw [if_neg hb, if_neg hb]
  · intro hgt
    have hble : p.length ≤ byteLenStr p := length_le_byteLenStr p hwf
    have hb : byteLenStr p > NOW_PLAYING_MAX_LEN := by omega
    obtain ⟨k, hk, he⟩ := trimEndClusters_eq_take (p.take NOW_PLAYING_MAX_LEN)
    have hktake : (p.take NOW_PLAYING_MAX_LEN).length = NOW_PLAYING_MAX_LEN := by
      rw [List.length_take]
      omega
    have hk70 : k ≤ NOW_PLAYING_MAX_LEN := by rw [hktake] at hk; exact hk
    have htt : (p.take NOW_PLAYING_MAX_LEN).take k = p.take k := by
      rw [List.take_take]
      congr 1
      omega
    have heq : truncatePlaying p = p.take k ++ [['…']] := by
      unfold truncatePlaying
      rw [if_pos hb, if_pos hgt, he, htt]
    refine ⟨k, hk70, heq, ?_, ?_⟩
    · rw [heq]
      simp only [List.length_append, List.length_cons, List.length_nil, List.length_take]
      omega
    · intro c hc
      cases hql : (p.take k).getLast? with
      | none =>
        have hnil : p.take k = [] := List.getLast?_eq_none_iff.mp hql
        rw [hnil] at hc
        simp at hc
      | some cl =>
        have hA : allWs cl = false := by
          refine trimEndClusters_getLast (p.take NOW_PLAYING_MAX_LEN) cl ?_
          rw [he, htt]
          exact hql
        have hmem : cl ∈ p := List.take_subset k p (List.mem_of_mem_getLast? hql)
        have hwfc : wfCluster cl = true := (List.all_eq_true.mp hwf) cl hmem
        have hne : cl ≠ [] := by
          intro hnil
          subst hnil
          simp [wfCluster] at hwfc
        have hfl : (p.take k).flatten.getLast? = cl.getLast? :=
          flatten_getLast? (p.take k) cl hql hne
        rw [hfl] at hc
        unfold wfCluster at hwfc
        rw [hc] at hwfc
        simp [hA] at hwfc
        exact hwfc.2

/-- C1 witness: the truncation theorem applied to a concrete well-formed
71-cluster string, which is cut to 70 clusters plus the ellipsis. -/
theorem c1_truncation_witness :
    wfStr p71 = true ∧ truncatePlaying p71 = List.replicate 70 ['a'] ++ [['…']] :=
  ⟨by decide, by
    have h := c1_truncation p71 (by decide)
    decide⟩

/-- C2 counterexample: a successfully exiting command whose stdout is not
UTF-8 makes the weather poller die by error propagation instead of
publishing its fallback, and a well-formed but too-short volume report
makes the volume poller die by panic. -/
theorem c2_counterexample :
    weatherStep (CmdResult.ok true [255]) = StepOutcome.fatalErr ∧
    weatherStep (CmdResult.ok true [255]) ≠
      StepOutcome.publish WEATHER_FALLBACK WEATHER_UPDATE_FREQUENCY ∧
    volumeStep (CmdResult.ok true [111, 107]) = StepOutcome.panicked ∧
    volumeStep (CmdResult.ok true [111, 107]) ≠ StepOutcome.publish VOL_FALLBACK 1000 := by
  refine ⟨by decide, by decide, by decide, by decide⟩

/-- C2 amended: spawn failures and nonzero exit statuses are converted to
the fallback text and the loop continues, but a decode failure (non-UTF8
stdout of a successful command) propagates via the error operator and
terminates the poller task, and a malformed volume report (fixed-offset
slice out of range) terminates the volume poller by panic. -/
theorem c2_amended (b : List Nat) (hb : utf8Decode b = none) :
    weatherStep CmdResult.spawnErr =
      StepOutcome.publish WEATHER_FALLBACK WEATHER_UPDATE_FREQUENCY ∧
    (∀ bs, weatherStep (CmdResult.ok false bs) =
      StepOutcome.publish WEATHER_FALLBACK WEATHER_UPDATE_FREQUENCY) ∧
    volumeStep CmdResult.spawnErr = StepOutcome.publish VOL_FALLBACK 1000 ∧
    (∀ bs, volumeStep (CmdResult.ok false bs) = StepOutcome.publish VOL_FALLBACK 1000) ∧
    weatherStep (CmdResult.ok true b) = StepOutcome.fatalErr ∧
    volumeStep (CmdResult.ok true b) = StepOutcome.fatalErr ∧
    (∀ bs out, utf8Decode bs = some out → byteSlice (rustTrim out) 10 12 = none →
      volumeStep (CmdResult.ok true bs) = StepOutcome.panicked) := by
  refine ⟨rfl, fun bs => rfl, rfl, fun bs => rfl, ?_, ?_, ?_⟩
  · simp [weatherStep, hb]
  · simp [volumeStep, hb]
  · intro bs out h1 h2
    simp [volumeStep, h1, h2]

/-- C2 witness: the amended theorem applied to the concrete non-UTF8
stdout byte 255. -/
theorem c2_amended_witness :
    utf8Decode [255] = none ∧
    weatherStep (CmdResult.ok true [255]) = StepOutcome.fatalErr :=
  ⟨by decide, (c2_amended [255] (by decide)).2.2.2.2.1⟩

/-- C3: artist selection falls back to a nonempty album-artist list exactly
when the track artist list is empty, and joining renders zero artists as
the sentinel, one artist unmodified, two artists with an ampersand
separator, and three or more with comma separators and no ampersand. -/
theorem c3_artists (x : Str) (xs : List Str) (y : Str) (ys : List Str)
    (a b c : Str) (rest : List Str) :
    selectArtists (x :: xs) (y :: ys) = x :: xs ∧
    selectArtists (x :: xs) [] = x :: xs ∧
    selectArtists [] (y :: ys) = y :: ys ∧
    selectArtists [] [] = [] ∧
    joinArtists [] = ofString ("???") ∧
    joinArtists [a] = a ∧
    joinArtists [a, b] = a ++ ofString (" & ") ++ b ∧
    joinArtists (a :: b :: c :: rest) = intercalateStr (ofString (", ")) (a :: b :: c :: rest) ∧
    joinArtists [ofString ("A"), ofString ("B"), ofString ("C")] = ofString ("A, B, C") ∧
    joinArtists [ofString ("A"), ofString ("B")] = ofString ("A & B") :=
  ⟨rfl, rfl, rfl, rfl, rfl, rfl, rfl, rfl, by decide, by decide⟩

/-- C4 counterexample: the volume poller sleeps 1000 ms after a spawn
failure but its configured poll interval of 323 ms after a success, so a
failure path does not reuse the per-source poll interval. -/
theorem c4_counterexample :
    volumeStep CmdResult.spawnErr = StepOutcome.publish VOL_FALLBACK 1000 ∧
    volumeStep (CmdResult.ok true volOkBytes) =
      StepOutcome.publish ("🔊 50%") VOL_UPDATE_FREQUENCY ∧
    (1000 : Nat) ≠ VOL_UPDATE_FREQUENCY := by
  refine ⟨by decide, by decide, by decide⟩

/-- C4 amended: the weather poller sleeps its fixed 5137 ms interval on
success and on every failure path; the volume poller sleeps a fixed 1000 ms
after a spawn failure or nonzero exit but its 323 ms interval after a
success; a permanently failing volume source keeps republishing its exact
fallback forever with the constant 1000 ms delay (no escalating
backoff). -/
theorem c4_amended (ins : Nat → CmdResult) (h : ∀ n, ins n = CmdResult.spawnErr) :
    (∀ bs out, utf8Decode bs = some out →
      weatherStep (CmdResult.ok true bs) =
        StepOutcome.publish (String.mk out) WEATHER_UPDATE_FREQUENCY) ∧
    weatherStep CmdResult.spawnErr =
      StepOutcome.publish WEATHER_FALLBACK WEATHER_UPDATE_FREQUENCY ∧
    (∀ bs, weatherStep (CmdResult.ok false bs) =
      StepOutcome.publish WEATHER_FALLBACK WEATHER_UPDATE_FREQUENCY) ∧
    volumeStep CmdResult.spawnErr = StepOutcome.publish VOL_FALLBACK 1000 ∧
    (∀ bs, volumeStep (CmdResult.ok false bs) = StepOutcome.publish VOL_FALLBACK 1000) ∧
    (∀ bs out vol, utf8Decode bs = some out → byteSlice (rustTrim out) 10 12 = some vol →
      sleepOf (volumeStep (CmdResult.ok true bs)) = some VOL_UPDATE_FREQUENCY) ∧
    (∀ n, volumeStep (ins n) = StepOutcome.publish VOL_FALLBACK 1000) := by
  refine ⟨?_, rfl, fun bs => rfl, rfl, fun bs => rfl, ?_, ?_⟩
  · intro bs out h1
    simp [weatherStep, h1]
  · intro bs out vol h1 h2
    simp [volumeStep, h1, h2, sleepOf]
  · intro n
    rw [h n]
    rfl

/-- C4 witness: the amended theorem applied to the always-spawn-failing
input stream. -/
theorem c4_amended_witness :
    constSpawn 0 = CmdResult.spawnErr ∧
    volumeStep (constSpawn 5) = StepOutcome.publish VOL_FALLBACK 1000 :=
  ⟨rfl, (c4_amended constSpawn (fun _ => rfl)).2.2.2.2.2.2 5⟩

/-- C5: a read of the latest-value slot after any sequence of publishes
returns the most recently published value, or the fallback the channel was
created with when nothing was published; a read returns the slot unchanged
(it neither fails nor consumes the value). -/
theorem c5_latest_value (fb : String) (pubs : List String) :
    watchBorrow (pubs.foldl watchSend (watchChannel fb)) = pubs.getLast?.getD fb ∧
    (∀ slot : String, watchBorrow slot = slot) :=
  ⟨foldl_watchSend pubs (watchChannel fb), fun _ => rfl⟩

/-- C6: the task list is exactly the fixed declared order (media player,
volume, weather) filtered by the disable flags; each render tick
concatenates the read statuses with single-space separators and appends the
timestamp rendering; with all three sources disabled the tick text is
exactly the timestamp rendering. -/
theorem c6_render (f : Flags) (value : SourceKind → String) (dt s : String) (rest : List String) :
    enabledSources f =
      ([SourceKind.mpd, SourceKind.vol, SourceKind.weather]).filter (fun k => !disabled f k) ∧
    buildStatusLine [] dt = dt ∧
    buildStatusLine (s :: rest) dt = s ++ (" ") ++ buildStatusLine rest dt ∧
    buildStatusLine ((enabledSources (Flags.mk true true true)).map value) dt = dt := by
  refine ⟨?_, ?_, ?_, ?_⟩
  · rcases f with ⟨m, v, w⟩
    cases m <;> cases v <;> cases w <;> rfl
  · unfold buildStatusLine
    rw [List.foldl_nil, String.empty_append]
  · unfold buildStatusLine
    rw [List.foldl_cons, foldl_append_str, String.empty_append]
    simp only [String.append_assoc]
  · show buildStatusLine [] dt = dt
    unfold buildStatusLine
    rw [List.foldl_nil, String.empty_append]

/-- C7: with elapsed time present the playback time is the two durations
rendered `MM:SS` and joined by a slash; without elapsed time it is the
fixed zero placeholder; 65 seconds renders as 01:05 and 3661 seconds as
61:01; a minute count of 10 or more is rendered as its full decimal, not
wrapped into hours. -/
theorem c7_duration (e d : RDuration) (dOpt : Option RDuration) (m k : Nat) :
    playback_time (some e) (some d) =
      some (format_duration e ++ ("/") ++ format_duration d) ∧
    playback_time none dOpt = some ("00:00") ∧
    format_duration (RDuration.mk 65 0) = ("01:05") ∧
    format_duration (RDuration.mk 3661 0) = ("61:01") ∧
    format_duration (RDuration.mk ((m + 10) * 60 + k % 60) 0) =
      toString (m + 10) ++ (":") ++ pad2 (k % 60) := by
  refine ⟨rfl, rfl, by decide, by decide, ?_⟩
  unfold format_duration RDuration.as_secs pad2
  have hdiv : ((m + 10) * 60 + k % 60) / 60 = m + 10 := by omega
  have hmod : ((m + 10) * 60 + k % 60) % 60 = k % 60 := by omega
  rw [hdiv, hmod, if_neg (by omega)]

/-- C8: with no current track the formatter returns the fixed "nothing
playing" sentinel, for every player status, bypassing the whole
pipeline. -/
theorem c8_nothing_playing (status : MpdStatus) :
    get_now_playing none status = some (ofString MPD_FALLBACK) ∧
    MPD_FALLBACK = ("🎵 ???") ∧
    get_now_playing none status = get_now_playing none (MpdStatus.mk none none) :=
  ⟨rfl, rfl, rfl⟩

/-- C9: without flags the header serializes to an object with exactly the
four documented fields and defaults (version 1, click events false,
continue signal 18, stop signal 19); with the suppression flag both signal
fields are 0. -/
theorem c9_header :
    headerJson (headerFor false) =
      Json.jobj [("version", Json.jnum 1), ("click_events", Json.jbool false),
        ("cont_signal", Json.jnum 18), ("stop_signal", Json.jnum 19)] ∧
    headerJson (headerFor true) =
      Json.jobj [("version", Json.jnum 1), ("click_events", Json.jbool false),
        ("cont_signal", Json.jnum 0), ("stop_signal", Json.jnum 0)] ∧
    (headerFor false).version = 1 ∧ (headerFor false).click_events = false ∧
    (headerFor false).cont_signal = 18 ∧ (headerFor false).stop_signal = 19 ∧
    (headerFor true).cont_signal = 0 ∧ (headerFor true).stop_signal = 0 :=
  ⟨rfl, rfl, rfl, rfl, rfl, rfl, rfl, rfl⟩

/-- C10: when every status with elapsed time present also carries a total
duration, the formatter is total (the unwrap cannot fail); a status with
elapsed present and duration absent reaches the unwrap failure branch. -/
theorem c10_unwrap_total (current : Option Song) (status : MpdStatus)
    (h : status.elapsed.isSome = true → status.duration.isSome = true) :
    (get_now_playing current status).isSome = true ∧
    get_now_playing (some (Song.mk [] [] none))
      (MpdStatus.mk (some (RDuration.mk 0 0)) none) = none := by
  refine ⟨?_, rfl⟩
  cases current with
  | none => rfl
  | some song =>
    rcases status with ⟨elapsed, duration⟩
    cases elapsed with
    | none => rfl
    | some e =>
      have hd : duration.isSome = true := h rfl
      cases duration with
      | none => simp at hd
      | some d => rfl

/-- C10 witness: the theorem applied to a concrete song and a status
carrying both elapsed and total duration. -/
theorem c10_unwrap_total_witness :
    ((MpdStatus.mk (some (RDuration.mk 65 0)) (some (RDuration.mk 100 0))).elapsed.isSome = true →
      (MpdStatus.mk (some (RDuration.mk 65 0)) (some (RDuration.mk 100 0))).duration.isSome = true) ∧
    ((get_now_playing (some (Song.mk [] [] none))
        (MpdStatus.mk (some (RDuration.mk 65 0)) (some (RDuration.mk 100 0)))).isSome = true ∧
      get_now_playing (some (Song.mk [] [] none))
        (MpdStatus.mk (some (RDuration.mk 0 0)) none) = none) :=
  ⟨fun _ => rfl,
    c10_unwrap_total (some (Song.mk [] [] none))
      (MpdStatus.mk (some (RDuration.mk 65 0)) (some (RDuration.mk 100 0))) (fun _ => rfl)⟩

end Subar
